import Mathlib

/-!
Verification development for `robosat_pink/tools/train.py`.

The python module is shallowly embedded: tensors are reduced to their shape
data (the only tensor facts the training loop inspects are sizes), model
parameters and optimizer state are abstract `Int` values threaded through an
abstract update function (the effect of `loss.backward()` + `optimizer.step()`
is external to this file, exactly as torch's Adam is external to train.py),
and the Metrics engine (from `robosat_pink.metrics`, outside this module) is
kept as the count of `(mask, prediction)` pairs fed to it together with
abstract getter functions for mIoU / foreground IoU / MCC.

Python `assert`/`sys.exit` terminate the process; they are embedded as error
results that carry the local state visible at the point of termination.
-/

namespace RobosatPink

/-- Spatial dimensions of a tensor slice, `size()[d:]` for the last two axes. -/
structure Dims where
  hgt : Nat
  wid : Nat
deriving DecidableEq, Repr

/-- One batch as the loop sees it: `images.size(0)` (the sample count), the
image spatial dims `images.size()[2:]`, and the mask spatial dims
`masks.size()[1:]`. -/
structure Batch where
  n : Nat
  imgDims : Dims
  maskDims : Dims
deriving DecidableEq, Repr

/-- The network: its parameter vector (abstract), its train/eval mode flag
(`net.train()` / `net.eval()`), and its forward-pass shape behaviour: the
output's spatial dims as a function of the input's, and the output's class
axis `outputs.size()[1]`. -/
structure Net where
  params : Int
  training : Bool
  outDimsOf : Dims → Dims
  outClasses : Nat

/-- Adam optimizer state (abstract). -/
structure Optimizer where
  state : Int
deriving DecidableEq, Repr

/-- The local accumulator variables of `train` / `validate`:
`num_samples`, `running_loss`, and the number of `(mask, prediction)` pairs
added to the Metrics engine so far. -/
structure PassState where
  numSamples : Nat
  runningLoss : Int
  metrics : Nat
deriving DecidableEq, Repr

/-- The fatal assertion failures of a pass: the three shape asserts and the
final `assert num_samples > 0` (EmptyDataset). -/
inductive TrainError where
  | shapeImageMask
  | shapeOutputMask
  | shapeOutputClasses
  | emptyDataset
deriving DecidableEq, Repr

/-- Whether the error is one of the shape-mismatch assertions. -/
def TrainError.isShape : TrainError → Bool
  | .emptyDataset => false
  | _ => true

/-- The statistics dict a pass returns: loss, mIoU, foreground IoU, MCC. -/
structure Hist where
  loss : Int
  miou : Int
  fg_iou : Int
  mcc : Int
deriving DecidableEq, Repr

/-- Result of the `train` function: the statistics dict on success, or the
assertion that fired, each together with the state at that moment. -/
inductive Outcome where
  | ok (hist : Hist) (s : PassState) (net : Net) (opt : Optimizer)
  | fail (e : TrainError) (s : PassState) (net : Net) (opt : Optimizer)

/-- Result of the `validate` function (it receives no optimizer). -/
inductive ValOutcome where
  | ok (hist : Hist) (s : PassState) (net : Net)
  | fail (e : TrainError) (s : PassState) (net : Net)

def Outcome.errOf : Outcome → Option TrainError
  | .ok _ _ _ _ => none
  | .fail e _ _ _ => some e

def Outcome.stateOf : Outcome → PassState
  | .ok _ s _ _ => s
  | .fail _ s _ _ => s

def Outcome.netOf : Outcome → Net
  | .ok _ _ n _ => n
  | .fail _ _ n _ => n

def Outcome.optOf : Outcome → Optimizer
  | .ok _ _ _ o => o
  | .fail _ _ _ o => o

def ValOutcome.errOf : ValOutcome → Option TrainError
  | .ok _ _ _ => none
  | .fail e _ _ => some e

def ValOutcome.stateOf : ValOutcome → PassState
  | .ok _ s _ => s
  | .fail _ s _ => s

def ValOutcome.netOf : ValOutcome → Net
  | .ok _ _ n => n
  | .fail _ _ n => n

/-- The per-batch loop of `train` (train.py lines 168-191), in source order:
assert image/mask spatial dims in sync; `num_samples += images.size(0)`;
`optimizer.zero_grad()`; forward pass; assert output/mask spatial dims in
sync; assert output class axis equals `num_classes`; loss; backward +
`optimizer.step()` (the abstract `upd` on (params, optimizer state));
`running_loss += loss`; feed the batch's `(mask, prediction)` pairs to the
Metrics engine. An assertion failure aborts with the state at that point. -/
def runTrainAux (numClasses : Nat) (criterion : Int → Batch → Int)
    (upd : Int → Int → Int × Int) :
    Net → Optimizer → PassState → List Batch →
      Except (TrainError × PassState × Net × Optimizer) (Net × Optimizer × PassState)
  | net, opt, s, [] => .ok (net, opt, s)
  | net, opt, s, b :: l =>
    if b.imgDims = b.maskDims then
      let s1 : PassState := { s with numSamples := s.numSamples + b.n }
      if net.outDimsOf b.imgDims = b.maskDims then
        if net.outClasses = numClasses then
          runTrainAux numClasses criterion upd
            { net with params := (upd net.params opt.state).1 }
            ⟨(upd net.params opt.state).2⟩
            { s1 with runningLoss := s1.runningLoss + criterion net.params b,
                      metrics := s1.metrics + b.n } l
        else .error (.shapeOutputClasses, s1, net, opt)
      else .error (.shapeOutputMask, s1, net, opt)
    else .error (.shapeImageMask, s, net, opt)

/-- The `train` function (train.py lines 160-200): `net.train()`, the batch
loop, the final `assert num_samples > 0`, then the statistics dict. -/
def runTrain (numClasses : Nat) (criterion : Int → Batch → Int)
    (upd : Int → Int → Int × Int) (miouOf fgIouOf mccOf : Nat → Int)
    (net : Net) (opt : Optimizer) (l : List Batch) : Outcome :=
  match runTrainAux numClasses criterion upd { net with training := true } opt ⟨0, 0, 0⟩ l with
  | .error (e, s, n, o) => .fail e s n o
  | .ok (n, o, s) =>
    if s.numSamples = 0 then .fail .emptyDataset s n o
    else
      .ok { loss := s.runningLoss / (s.numSamples : Int),
            miou := miouOf s.metrics, fg_iou := fgIouOf s.metrics,
            mcc := mccOf s.metrics } s n o

/-- The per-batch loop of `validate` (train.py lines 212-228): same asserts
and accumulation as the train loop, under `torch.no_grad()`: no
`zero_grad`, no backward, no `optimizer.step()`; the net is not touched. -/
def runValidateAux (numClasses : Nat) (criterion : Int → Batch → Int) :
    Net → PassState → List Batch →
      Except (TrainError × PassState × Net) (Net × PassState)
  | net, s, [] => .ok (net, s)
  | net, s, b :: l =>
    if b.imgDims = b.maskDims then
      let s1 : PassState := { s with numSamples := s.numSamples + b.n }
      if net.outDimsOf b.imgDims = b.maskDims then
        if net.outClasses = numClasses then
          runValidateAux numClasses criterion net
            { s1 with runningLoss := s1.runningLoss + criterion net.params b,
                      metrics := s1.metrics + b.n } l
        else .error (.shapeOutputClasses, s1, net)
      else .error (.shapeOutputMask, s1, net)
    else .error (.shapeImageMask, s, net)

/-- The `validate` function (train.py lines 203-237): `net.eval()`, the
no-grad batch loop, the final `assert num_samples > 0`, the statistics
dict. It receives no optimizer at all. -/
def runValidate (numClasses : Nat) (criterion : Int → Batch → Int)
    (miouOf fgIouOf mccOf : Nat → Int) (net : Net) (l : List Batch) : ValOutcome :=
  match runValidateAux numClasses criterion { net with training := false } ⟨0, 0, 0⟩ l with
  | .error (e, s, n) => .fail e s n
  | .ok (n, s) =>
    if s.numSamples = 0 then .fail .emptyDataset s n
    else
      .ok { loss := s.runningLoss / (s.numSamples : Int),
            miou := miouOf s.metrics, fg_iou := fgIouOf s.metrics,
            mcc := mccOf s.metrics } s n

/-- Total number of samples in a list of batches (what `num_samples` sums). -/
def visitedSamples (l : List Batch) : Nat := (l.map Batch.n).sum

/-- A batch satisfying all three shape assertions of the loop, for a given
net and configured class count. -/
def WellShaped (numClasses : Nat) (net : Net) (b : Batch) : Prop :=
  b.imgDims = b.maskDims ∧ net.outDimsOf b.imgDims = b.maskDims ∧
    net.outClasses = numClasses

instance (numClasses : Nat) (net : Net) (b : Batch) :
    Decidable (WellShaped numClasses net b) := by
  unfold WellShaped; infer_instance

/-- The batches a `DataLoader(..., drop_last=True)` yields over a dataset of
`count` samples (train.py lines 268-269): `count / batchSize` full batches
of exactly `batchSize` samples each, the trailing `count % batchSize`
samples dropped; every tile resized to the same spatial dims `d`. -/
def loaderBatches (count batchSize : Nat) (d : Dims) : List Batch :=
  List.replicate (count / batchSize) ⟨batchSize, d, d⟩

/-- Decimal digit characters of `n`, most significant first (empty for 0),
exactly the digits `"{:d}".format(n)` prints. -/
def digitChars (n : Nat) : List Char := ((Nat.digits 10 n).map Nat.digitChar).reverse

/-- The characters `"{:05d}".format(n)` produces: the decimal rendering of
`n`, left-padded with `'0'` to width 5 (special case: `0` renders as five
zeros, matching python; numbers of six or more digits are not truncated). -/
def pad5 (n : Nat) : List Char :=
  List.replicate (5 - (digitChars n).length) '0' ++ digitChars n

/-- Read a zero-padded decimal character string back to the number. -/
def charToDigit (c : Char) : Nat := c.toNat - 48

def decodePad (s : List Char) : Nat :=
  Nat.ofDigits 10 ((s.map charToDigit).reverse)

/-- The checkpoint filename of train.py line 156:
`"checkpoint-{:05d}-of-{:05d}.pth".format(epoch + 1, num_epochs)`
(the directory part `args.out` is common to all epochs and omitted). -/
def chkptName (k total : Nat) : String :=
  ⟨"checkpoint-".data ++ (pad5 k ++ ("-of-".data ++ (pad5 total ++ ".pth".data)))⟩

/-- The checkpoint record saved each epoch (train.py line 155) and the file
it is written to: `{"epoch": epoch + 1, "state_dict": ..., "optimizer": ...}`. -/
structure Saved where
  path : String
  epoch : Nat
  state_dict : Int
  optimizer : Int
deriving DecidableEq, Repr

/-- A checkpoint file's contents as `torch.load` returns them. -/
structure Chkpt where
  epoch : Nat
  state_dict : Int
  optimizer : Int
deriving DecidableEq, Repr

/-- The CLI arguments that decide checkpoint semantics: `--checkpoint`
(already loaded) and `--resume`. -/
structure Args where
  checkpoint : Option Chkpt
  resume : Bool

/-- The configuration values `main` reads that matter here. -/
structure Cfg where
  modelName : String
  lossName : String
  numEpochs : Nat
  numClasses : Nat

/-- The external collaborators of `main`: the plugin names `pkgutil`
discovers under `robosat_pink.models` / `robosat_pink.losses`, the freshly
constructed network and Adam state, the loss function, the effect of one
backward + optimizer step on (params, optimizer state), and the Metrics
getters (all defined outside train.py). -/
structure Env where
  models : List String
  losses : List String
  initNet : Net
  freshOpt : Optimizer
  criterion : Int → Batch → Int
  upd : Int → Int → Int × Int
  miouOf : Nat → Int
  fgIouOf : Nat → Int
  mccOf : Nat → Int

/-- The three `sys.exit` messages of `main`, with the data each message
interpolates: the unknown-plugin messages list every available name
(train.py lines 75 and 102), the resume-guard message names the epoch
count already reached (line 110). `sys.exit(string)` exits with status 1. -/
inductive ExitMsg where
  | unknownModel (available : List String)
  | unknownLoss (available : List String)
  | epochReached (numEpochs : Nat)
deriving DecidableEq, Repr

/-- The part of `main` before the epoch loop, in source order (train.py
lines 73-110): the model-name check against the discovered plugin list;
checkpoint loading — `load_state_dict` always, and additionally the
optimizer state and the resume epoch when `--resume` is set; the loss-name
check; and the resume guard `if resume >= num_epochs: sys.exit(...)`.
Returns the net, optimizer and start epoch the loop runs with. -/
def mainSetup (cfg : Cfg) (args : Args) (env : Env) :
    Except ExitMsg (Net × Optimizer × Nat) :=
  if cfg.modelName ∉ env.models then .error (.unknownModel env.models)
  else
    let st :=
      match args.checkpoint with
      | none => (env.initNet, env.freshOpt, 0)
      | some c =>
        let net1 := { env.initNet with params := c.state_dict }
        if args.resume then (net1, (⟨c.optimizer⟩ : Optimizer), c.epoch)
        else (net1, env.freshOpt, 0)
    if cfg.lossName ∉ env.losses then .error (.unknownLoss env.losses)
    else if cfg.numEpochs ≤ st.2.2 then .error (.epochReached cfg.numEpochs)
    else .ok st

/-- One iteration of the epoch loop (train.py lines 132-157): the train
pass, the validation pass, then the checkpoint record
`{epoch + 1, net.state_dict(), optimizer.state_dict()}` written to
`chkptName (epoch + 1) num_epochs`. A failed assertion in either pass
aborts the process. -/
def epochBody (cfg : Cfg) (env : Env) (trainB valB : List Batch) (e : Nat)
    (net : Net) (opt : Optimizer) : Except TrainError (Saved × Net × Optimizer) :=
  match runTrain cfg.numClasses env.criterion env.upd env.miouOf env.fgIouOf env.mccOf
      net opt trainB with
  | .fail err _ _ _ => .error err
  | .ok _ _ net1 opt1 =>
    match runValidate cfg.numClasses env.criterion env.miouOf env.fgIouOf env.mccOf
        net1 valB with
    | .fail err _ _ => .error err
    | .ok _ _ net2 =>
      .ok ({ path := chkptName (e + 1) cfg.numEpochs, epoch := e + 1,
             state_dict := net2.params, optimizer := opt1.state }, net2, opt1)

/-- How the epoch loop ends: all epochs completed, or an assertion aborted
it; either way, the checkpoints written so far. -/
inductive LoopResult where
  | done (saved : List Saved) (net : Net) (opt : Optimizer)
  | crash (err : TrainError) (saved : List Saved)

/-- The epoch loop `for epoch in range(resume, num_epochs)` run for
`remaining` more epochs starting at epoch `e`. -/
def runEpochs (cfg : Cfg) (env : Env) (trainB valB : List Batch) :
    Nat → Nat → Net → Optimizer → LoopResult
  | 0, _, net, opt => .done [] net opt
  | remaining + 1, e, net, opt =>
    match epochBody cfg env trainB valB e net opt with
    | .error err => .crash err []
    | .ok (sv, net2, opt2) =>
      match runEpochs cfg env trainB valB remaining (e + 1) net2 opt2 with
      | .done svs n o => .done (sv :: svs) n o
      | .crash err svs => .crash err (sv :: svs)

/-- The whole of `main` after config/argument resolution: setup (plugin
checks, checkpoint handling, resume guard), then the epoch loop from the
resume epoch to `num_epochs`. `trainB`/`valB` are the batch sequences the
two data loaders yield. -/
def mainModel (cfg : Cfg) (args : Args) (env : Env) (trainB valB : List Batch) :
    Except ExitMsg LoopResult :=
  match mainSetup cfg args env with
  | .error m => .error m
  | .ok (net, opt, resume) =>
    .ok (runEpochs cfg env trainB valB (cfg.numEpochs - resume) resume net opt)

def LoopResult.saved : LoopResult → List Saved
  | .done svs _ _ => svs
  | .crash _ svs => svs

/-- The checkpoints a whole run wrote (none when `main` exited in setup). -/
def mainSaved : Except ExitMsg LoopResult → List Saved
  | .error _ => []
  | .ok lr => lr.saved

/-- Number of training epochs a run completed (one checkpoint per epoch). -/
def epochsRun (r : Except ExitMsg LoopResult) : Nat := (mainSaved r).length

/-- The process exit status: `sys.exit(message)` and an uncaught
`AssertionError` both exit non-zero; a completed run exits 0. -/
def exitCode : Except ExitMsg LoopResult → Nat
  | .error _ => 1
  | .ok (.crash _ _) => 1
  | .ok (.done _ _ _) => 0

/-- Modelled from the spec: the image-only transforms of
`robosat_pink.transforms` used in train.py — `ImageToTensor` and
`Normalize(mean, std)` with its per-channel constants (the module itself
is not part of the staged sources). -/
inductive ImgOp where
  | imageToTensor
  | normalize (mean std : List ℚ)
deriving DecidableEq, Repr

/-- Modelled from the spec: the mask-only transform `MaskToTensor`. -/
inductive MaskOp where
  | maskToTensor
deriving DecidableEq, Repr

/-- Modelled from the spec: the joint stages `JointCompose` composes —
`JointResize(size)`, `JointRandomFlipOrRotate(flag)` (a no-op when the
data-augmentation flag is off, otherwise one of the six geometric choices
drawn at random and applied identically to image and mask), and
`JointTransform(img_op, mask_op)` where a `None` mask transform leaves the
mask untouched. -/
inductive JointStage where
  | jointResize (size : Nat)
  | jointRandomFlipOrRotate (flag : Bool)
  | jointTransform (imgOp : ImgOp) (maskOp : Option MaskOp)
deriving DecidableEq, Repr

/-- Modelled from the spec: the meaning of the primitive transforms over
abstract image and mask carriers — resize (smooth for images,
nearest-neighbour for masks), the six flip/rotate geometries indexed by
the random draw, tensor conversion, and image normalization. -/
structure TransformSem (I M : Type) where
  resizeI : Nat → I → I
  resizeM : Nat → M → M
  flipI : Fin 6 → I → I
  flipM : Fin 6 → M → M
  toTensorI : I → I
  toTensorM : M → M
  normalizeI : List ℚ → List ℚ → I → I

/-- Modelled from the spec: apply one joint stage to an (image, mask) pair,
`c` being the random flip/rotate draw for this sample. -/
def applyStage {I M : Type} (sem : TransformSem I M) (c : Fin 6) :
    JointStage → I × M → I × M
  | .jointResize size, (i, m) => (sem.resizeI size i, sem.resizeM size m)
  | .jointRandomFlipOrRotate flag, (i, m) =>
    if flag then (sem.flipI c i, sem.flipM c m) else (i, m)
  | .jointTransform imgOp maskOp, (i, m) =>
    (match imgOp with
     | .imageToTensor => sem.toTensorI i
     | .normalize mean std => sem.normalizeI mean std i,
     match maskOp with
     | none => m
     | some .maskToTensor => sem.toTensorM m)

/-- Modelled from the spec: `JointCompose` applies its stages left to
right. -/
def applyCompose {I M : Type} (sem : TransformSem I M) (c : Fin 6)
    (stages : List JointStage) (p : I × M) : I × M :=
  stages.foldl (fun q st => applyStage sem c st q) p

/-- The ImageNet per-channel means of train.py line 242
(`[0.485, 0.456, 0.406]`, as exact rationals). -/
def imagenetMean : List ℚ := [485/1000, 456/1000, 406/1000]

/-- The ImageNet per-channel standard deviations of train.py line 242
(`[0.229, 0.224, 0.225]`). -/
def imagenetStd : List ℚ := [229/1000, 224/1000, 225/1000]

/-- The `JointCompose` pipeline built in `get_dataset_loaders` (train.py
lines 244-251), shared by the training and validation datasets: resize to
the configured tile size, random flip-or-rotate gated by the
data-augmentation flag, tensor conversion for image and mask, then
`JointTransform(Normalize(mean, std), None)`. -/
def trainTransform (tileSize : Nat) (dataAug : Bool) : List JointStage :=
  [JointStage.jointResize tileSize,
   JointStage.jointRandomFlipOrRotate dataAug,
   JointStage.jointTransform ImgOp.imageToTensor (some MaskOp.maskToTensor),
   JointStage.jointTransform (ImgOp.normalize imagenetMean imagenetStd) none]

/-- The conversion argparse applies to a value of the `--dataset` flag,
which `add_parser` declares with `type=int` (train.py line 41): python's
`int(string)` — an optional sign followed by decimal digits; anything else
raises, and argparse then exits with an error. -/
def allDigits : List Char → Bool
  | [] => true
  | ch :: l => ch.isDigit && allDigits l

def charsToNat (l : List Char) : Nat :=
  l.foldl (fun n ch => n * 10 + (ch.toNat - 48)) 0

def datasetFlagParse (s : String) : Option Int :=
  match s.data with
  | [] => none
  | '-' :: l => if l ≠ [] && allDigits l then some (-(charsToNat l : Int)) else none
  | '+' :: l => if l ≠ [] && allDigits l then some ((charsToNat l : Int)) else none
  | l => if l ≠ [] && allDigits l then some ((charsToNat l : Int)) else none

/-! ## Lemmas about a single pass -/

@[simp]
lemma visitedSamples_nil : visitedSamples [] = 0 := rfl

@[simp]
lemma visitedSamples_cons (b : Batch) (l : List Batch) :
    visitedSamples (b :: l) = b.n + visitedSamples l := by
  simp [visitedSamples]

/-- A train loop over shape-consistent batches completes, counting every
sample of every batch into `num_samples` and into the metrics, and leaves
the net's shape behaviour and mode intact. -/
lemma trainAux_ok (numClasses : Nat) (criterion : Int → Batch → Int)
    (upd : Int → Int → Int × Int) :
    ∀ (l : List Batch) (net : Net) (opt : Optimizer) (s : PassState),
      (∀ b ∈ l, WellShaped numClasses net b) →
      ∃ net' opt' rl,
        runTrainAux numClasses criterion upd net opt s l =
          .ok (net', opt',
            ⟨s.numSamples + visitedSamples l, rl, s.metrics + visitedSamples l⟩) ∧
        net'.outDimsOf = net.outDimsOf ∧ net'.outClasses = net.outClasses ∧
        net'.training = net.training := by
  intro l
  induction l with
  | nil =>
    intro net opt s _
    exact ⟨net, opt, s.runningLoss, by simp [runTrainAux], rfl, rfl, rfl⟩
  | cons b l ih =>
    intro net opt s hws
    obtain ⟨h1, h2, h3⟩ := hws b (List.mem_cons_self b l)
    obtain ⟨net', opt', rl, heq, hd, hc, ht⟩ :=
      ih { net with params := (upd net.params opt.state).1 }
        ⟨(upd net.params opt.state).2⟩
        ⟨s.numSamples + b.n, s.runningLoss + criterion net.params b, s.metrics + b.n⟩
        (fun x hx => hws x (List.mem_cons_of_mem _ hx))
    refine ⟨net', opt', rl, ?_, hd, hc, ht⟩
    simp only [runTrainAux, if_pos h1, if_pos h2, if_pos h3]
    rw [visitedSamples_cons, ← Nat.add_assoc, ← Nat.add_assoc]
    exact heq

/-- A train loop that reaches a batch violating one of the shape asserts
aborts with a shape error, the metrics holding only the pairs of the
batches before it. -/
lemma trainAux_shape (numClasses : Nat) (criterion : Int → Batch → Int)
    (upd : Int → Int → Int × Int) :
    ∀ (pre : List Batch) (b : Batch) (rest : List Batch) (net : Net)
      (opt : Optimizer) (s : PassState),
      (∀ x ∈ pre, WellShaped numClasses net x) →
      ¬ WellShaped numClasses net b →
      ∃ e s' net' opt',
        runTrainAux numClasses criterion upd net opt s (pre ++ b :: rest) =
          .error (e, s', net', opt') ∧
        e.isShape = true ∧ s'.metrics = s.metrics + visitedSamples pre := by
  intro pre
  induction pre with
  | nil =>
    intro b rest net opt s _ hb
    by_cases h1 : b.imgDims = b.maskDims
    · by_cases h2 : net.outDimsOf b.imgDims = b.maskDims
      · have h3 : net.outClasses ≠ numClasses := fun h3 => hb ⟨h1, h2, h3⟩
        refine ⟨.shapeOutputClasses, ⟨s.numSamples + b.n, s.runningLoss, s.metrics⟩,
          net, opt, ?_, rfl, by simp⟩
        simp [runTrainAux, if_pos h1, if_pos h2, if_neg h3]
      · refine ⟨.shapeOutputMask, ⟨s.numSamples + b.n, s.runningLoss, s.metrics⟩,
          net, opt, ?_, rfl, by simp⟩
        simp [runTrainAux, if_pos h1, if_neg h2]
    · refine ⟨.shapeImageMask, s, net, opt, ?_, rfl, by simp⟩
      simp [runTrainAux, if_neg h1]
  | cons x pre ih =>
    intro b rest net opt s hws hb
    obtain ⟨h1, h2, h3⟩ := hws x (List.mem_cons_self x pre)
    obtain ⟨e, s', net', opt', heq, hse, hm⟩ :=
      ih b rest { net with params := (upd net.params opt.state).1 }
        ⟨(upd net.params opt.state).2⟩
        ⟨s.numSamples + x.n, s.runningLoss + criterion net.params x, s.metrics + x.n⟩
        (fun y hy => hws y (List.mem_cons_of_mem _ hy)) hb
    refine ⟨e, s', net', opt', ?_, hse, ?_⟩
    · simp only [List.cons_append, runTrainAux, if_pos h1, if_pos h2, if_pos h3]
      exact heq
    · rw [hm]; simp [Nat.add_assoc]

/-- A validation loop over shape-consistent batches completes with the same
accounting, and returns the net it was given. -/
lemma valAux_ok (numClasses : Nat) (criterion : Int → Batch → Int) :
    ∀ (l : List Batch) (net : Net) (s : PassState),
      (∀ b ∈ l, WellShaped numClasses net b) →
      ∃ rl,
        runValidateAux numClasses criterion net s l =
          .ok (net, ⟨s.numSamples + visitedSamples l, rl, s.metrics + visitedSamples l⟩) := by
  intro l
  induction l with
  | nil =>
    intro net s _
    exact ⟨s.runningLoss, by simp [runValidateAux]⟩
  | cons b l ih =>
    intro net s hws
    obtain ⟨h1, h2, h3⟩ := hws b (List.mem_cons_self b l)
    obtain ⟨rl, heq⟩ :=
      ih net ⟨s.numSamples + b.n, s.runningLoss + criterion net.params b, s.metrics + b.n⟩
        (fun x hx => hws x (List.mem_cons_of_mem _ hx))
    refine ⟨rl, ?_⟩
    simp only [runValidateAux, if_pos h1, if_pos h2, if_pos h3]
    rw [visitedSamples_cons, ← Nat.add_assoc, ← Nat.add_assoc]
    exact heq

/-- A validation loop that reaches a shape-violating batch aborts with a
shape error; metrics hold only the earlier batches' pairs. -/
lemma valAux_shape (numClasses : Nat) (criterion : Int → Batch → Int) :
    ∀ (pre : List Batch) (b : Batch) (rest : List Batch) (net : Net) (s : PassState),
      (∀ x ∈ pre, WellShaped numClasses net x) →
      ¬ WellShaped numClasses net b →
      ∃ e s' net',
        runValidateAux numClasses criterion net s (pre ++ b :: rest) =
          .error (e, s', net') ∧
        e.isShape = true ∧ s'.metrics = s.metrics + visitedSamples pre := by
  intro pre
  induction pre with
  | nil =>
    intro b rest net s _ hb
    by_cases h1 : b.imgDims = b.maskDims
    · by_cases h2 : net.outDimsOf b.imgDims = b.maskDims
      · have h3 : net.outClasses ≠ numClasses := fun h3 => hb ⟨h1, h2, h3⟩
        refine ⟨.shapeOutputClasses, ⟨s.numSamples + b.n, s.runningLoss, s.metrics⟩,
          net, ?_, rfl, by simp⟩
        simp [runValidateAux, if_pos h1, if_pos h2, if_neg h3]
      · refine ⟨.shapeOutputMask, ⟨s.numSamples + b.n, s.runningLoss, s.metrics⟩,
          net, ?_, rfl, by simp⟩
        simp [runValidateAux, if_pos h1, if_neg h2]
    · refine ⟨.shapeImageMask, s, net, ?_, rfl, by simp⟩
      simp [runValidateAux, if_neg h1]
  | cons x pre ih =>
    intro b rest net s hws hb
    obtain ⟨h1, h2, h3⟩ := hws x (List.mem_cons_self x pre)
    obtain ⟨e, s', net', heq, hse, hm⟩ :=
      ih b rest net
        ⟨s.numSamples + x.n, s.runningLoss + criterion net.params x, s.metrics + x.n⟩
        (fun y hy => hws y (List.mem_cons_of_mem _ hy)) hb
    refine ⟨e, s', net', ?_, hse, ?_⟩
    · simp only [List.cons_append, runValidateAux, if_pos h1, if_pos h2, if_pos h3]
      exact heq
    · rw [hm]; simp [Nat.add_assoc]

/-- The net component of a validation-loop result. -/
def valAuxNet : Except (TrainError × PassState × Net) (Net × PassState) → Net
  | .error (_, _, n) => n
  | .ok (n, _) => n

/-- The validation loop returns the very net it was given, whether it
completes or aborts: no step of it writes to the net. -/
lemma valAux_net (numClasses : Nat) (criterion : Int → Batch → Int) (net : Net) :
    ∀ (l : List Batch) (s : PassState),
      valAuxNet (runValidateAux numClasses criterion net s l) = net := by
  intro l
  induction l with
  | nil => intro s; rfl
  | cons b l ih =>
    intro s
    by_cases h1 : b.imgDims = b.maskDims
    · by_cases h2 : net.outDimsOf b.imgDims = b.maskDims
      · by_cases h3 : net.outClasses = numClasses
        · simp only [runValidateAux, if_pos h1, if_pos h2, if_pos h3]
          exact ih _
        · simp [runValidateAux, if_pos h1, if_pos h2, if_neg h3, valAuxNet]
      · simp [runValidateAux, if_pos h1, if_neg h2, valAuxNet]
    · simp [runValidateAux, if_neg h1, valAuxNet]

/-- Whole `train` call over shape-consistent batches: fails the
EmptyDataset assert exactly when no samples were seen, otherwise returns
the statistics dict; the net keeps its shape behaviour and ends in
training mode. -/
lemma runTrain_wellShaped (numClasses : Nat) (criterion : Int → Batch → Int)
    (upd : Int → Int → Int × Int) (miouOf fgIouOf mccOf : Nat → Int)
    (net : Net) (opt : Optimizer) (l : List Batch)
    (hws : ∀ b ∈ l, WellShaped numClasses net b) :
    (visitedSamples l = 0 →
      ∃ s' n' o',
        runTrain numClasses criterion upd miouOf fgIouOf mccOf net opt l =
          .fail .emptyDataset s' n' o') ∧
    (visitedSamples l ≠ 0 →
      ∃ hist s' n' o',
        runTrain numClasses criterion upd miouOf fgIouOf mccOf net opt l =
          .ok hist s' n' o' ∧
        s'.numSamples = visitedSamples l ∧ s'.metrics = visitedSamples l ∧
        n'.outDimsOf = net.outDimsOf ∧ n'.outClasses = net.outClasses ∧
        n'.training = true) := by
  obtain ⟨net', opt', rl, heq, hd, hc, ht⟩ :=
    trainAux_ok numClasses criterion upd l { net with training := true } opt ⟨0, 0, 0⟩ hws
  constructor
  · intro hz
    refine ⟨⟨visitedSamples l, rl, visitedSamples l⟩, net', opt', ?_⟩
    simp only [runTrain, heq]
    simp [hz]
  · intro hz
    refine ⟨⟨rl / (visitedSamples l : Int), miouOf (visitedSamples l),
      fgIouOf (visitedSamples l), mccOf (visitedSamples l)⟩,
      ⟨visitedSamples l, rl, visitedSamples l⟩, net', opt', ?_, rfl, rfl, hd, hc, ht⟩
    simp only [runTrain, heq]
    simp [hz]

/-- Whole `validate` call over shape-consistent batches: EmptyDataset
exactly on zero samples, otherwise the statistics dict; the net it returns
is the input net switched to eval mode. -/
lemma runValidate_wellShaped (numClasses : Nat) (criterion : Int → Batch → Int)
    (miouOf fgIouOf mccOf : Nat → Int) (net : Net) (l : List Batch)
    (hws : ∀ b ∈ l, WellShaped numClasses net b) :
    (visitedSamples l = 0 →
      ∃ s',
        runValidate numClasses criterion miouOf fgIouOf mccOf net l =
          .fail .emptyDataset s' { net with training := false }) ∧
    (visitedSamples l ≠ 0 →
      ∃ hist s',
        runValidate numClasses criterion miouOf fgIouOf mccOf net l =
          .ok hist s' { net with training := false } ∧
        s'.numSamples = visitedSamples l ∧ s'.metrics = visitedSamples l) := by
  obtain ⟨rl, heq⟩ :=
    valAux_ok numClasses criterion l { net with training := false } ⟨0, 0, 0⟩ hws
  constructor
  · intro hz
    refine ⟨⟨visitedSamples l, rl, visitedSamples l⟩, ?_⟩
    simp only [runValidate, heq]
    simp [hz]
  · intro hz
    refine ⟨⟨rl / (visitedSamples l : Int), miouOf (visitedSamples l),
      fgIouOf (visitedSamples l), mccOf (visitedSamples l)⟩,
      ⟨visitedSamples l, rl, visitedSamples l⟩, ?_, rfl, rfl⟩
    simp only [runValidate, heq]
    simp [hz]

/-- One epoch over shape-consistent, non-empty loaders: both passes
succeed and the epoch ends by emitting the checkpoint record for
`epoch + 1` under the formatted filename, the net keeping its shape
behaviour. -/
lemma epochBody_ok (cfg : Cfg) (env : Env) (trainB valB : List Batch) (e : Nat)
    (net : Net) (opt : Optimizer)
    (hT : ∀ b ∈ trainB, WellShaped cfg.numClasses net b)
    (hV : ∀ b ∈ valB, WellShaped cfg.numClasses net b)
    (hTn : visitedSamples trainB ≠ 0) (hVn : visitedSamples valB ≠ 0) :
    ∃ net2 opt2,
      epochBody cfg env trainB valB e net opt =
        .ok ({ path := chkptName (e + 1) cfg.numEpochs, epoch := e + 1,
               state_dict := net2.params, optimizer := opt2.state }, net2, opt2) ∧
      net2.outDimsOf = net.outDimsOf ∧ net2.outClasses = net.outClasses := by
  obtain ⟨hist1, s1, net1, opt1, heq1, _, _, hd1, hc1, _⟩ :=
    (runTrain_wellShaped cfg.numClasses env.criterion env.upd env.miouOf env.fgIouOf
      env.mccOf net opt trainB hT).2 hTn
  have hV1 : ∀ b ∈ valB, WellShaped cfg.numClasses net1 b := by
    intro b hb
    obtain ⟨x1, x2, x3⟩ := hV b hb
    exact ⟨x1, by rw [hd1]; exact x2, by rw [hc1]; exact x3⟩
  obtain ⟨hist2, s2, heq2, _, _⟩ :=
    (runValidate_wellShaped cfg.numClasses env.criterion env.miouOf env.fgIouOf
      env.mccOf net1 valB hV1).2 hVn
  refine ⟨{ net1 with training := false }, opt1, ?_, hd1, hc1⟩
  simp only [epochBody, heq1, heq2]

/-- The epoch loop over shape-consistent, non-empty loaders completes all
remaining epochs, emitting exactly one checkpoint per epoch: the epoch
numbers recorded are `e+1, …, e+r` and the filenames are the
corresponding formatted names. -/
lemma runEpochs_done (cfg : Cfg) (env : Env) (trainB valB : List Batch) :
    ∀ (r e : Nat) (net : Net) (opt : Optimizer),
      (∀ b ∈ trainB, WellShaped cfg.numClasses net b) →
      (∀ b ∈ valB, WellShaped cfg.numClasses net b) →
      visitedSamples trainB ≠ 0 → visitedSamples valB ≠ 0 →
      ∃ svs net' opt',
        runEpochs cfg env trainB valB r e net opt = .done svs net' opt' ∧
        svs.map Saved.epoch = List.range' (e + 1) r ∧
        svs.map Saved.path =
          (List.range' (e + 1) r).map (fun k => chkptName k cfg.numEpochs) := by
  intro r
  induction r with
  | zero =>
    intro e net opt _ _ _ _
    exact ⟨[], net, opt, rfl, rfl, rfl⟩
  | succ r ih =>
    intro e net opt hT hV hTn hVn
    obtain ⟨net2, opt2, heq, hd, hc⟩ :=
      epochBody_ok cfg env trainB valB e net opt hT hV hTn hVn
    have hT2 : ∀ b ∈ trainB, WellShaped cfg.numClasses net2 b := by
      intro b hb
      obtain ⟨x1, x2, x3⟩ := hT b hb
      exact ⟨x1, by rw [hd]; exact x2, by rw [hc]; exact x3⟩
    have hV2 : ∀ b ∈ valB, WellShaped cfg.numClasses net2 b := by
      intro b hb
      obtain ⟨x1, x2, x3⟩ := hV b hb
      exact ⟨x1, by rw [hd]; exact x2, by rw [hc]; exact x3⟩
    obtain ⟨svs, net', opt', heqr, hmape, hmapp⟩ := ih (e + 1) net2 opt2 hT2 hV2 hTn hVn
    refine ⟨{ path := chkptName (e + 1) cfg.numEpochs, epoch := e + 1,
              state_dict := net2.params, optimizer := opt2.state } :: svs,
            net', opt', ?_, ?_, ?_⟩
    · simp only [runEpochs, heq, heqr]
    · simp only [List.map_cons, hmape, List.range'_succ]
    · simp only [List.map_cons, hmapp, List.range'_succ, List.map_cons]

/-! ## Lemmas about the zero-padded checkpoint filename -/

lemma ofDigits_replicate_zero (k : Nat) :
    Nat.ofDigits 10 (List.replicate k 0) = 0 := by
  induction k with
  | zero => simp [Nat.ofDigits]
  | succ n ih => simp [List.replicate_succ, Nat.ofDigits_cons, ih]

lemma charToDigit_digitChar (d : Nat) (h : d < 10) :
    charToDigit (Nat.digitChar d) = d := by
  interval_cases d <;> rfl

/-- Reading the padded rendering back gives the number: left zero-padding
never loses information. -/
lemma decodePad_pad5 (n : Nat) : decodePad (pad5 n) = n := by
  have hmap : (Nat.digits 10 n).map (charToDigit ∘ Nat.digitChar) = Nat.digits 10 n := by
    have : ∀ d ∈ Nat.digits 10 n, (charToDigit ∘ Nat.digitChar) d = id d := by
      intro d hd
      exact charToDigit_digitChar d (Nat.digits_lt_base (by norm_num) hd)
    rw [List.map_congr_left this, List.map_id]
  have hzero : charToDigit '0' = 0 := rfl
  unfold decodePad pad5 digitChars
  rw [List.map_append, List.map_replicate, hzero, List.map_reverse, List.map_map, hmap,
    List.reverse_append, List.reverse_reverse, List.reverse_replicate,
    Nat.ofDigits_append, Nat.ofDigits_digits, ofDigits_replicate_zero]
  ring

/-- Zero-padded decimal rendering is injective. -/
lemma pad5_inj {a b : Nat} (h : pad5 a = pad5 b) : a = b := by
  have := congrArg decodePad h
  rwa [decodePad_pad5, decodePad_pad5] at this

/-- For a fixed total epoch count, distinct epoch indices give distinct
checkpoint filenames: no epoch's file is a later epoch's file. -/
lemma chkptName_inj (total : Nat) : Function.Injective (fun k => chkptName k total) := by
  intro a b h
  simp only [chkptName] at h
  have hdata := congrArg String.data h
  simp only at hdata
  have h1 := List.append_cancel_left hdata
  have h2 := List.append_cancel_right h1
  exact pad5_inj h2

/-! ## Concrete fixtures used by the witnesses -/

/-- A concrete network whose forward pass preserves spatial dims and emits
two classes. -/
def netW : Net :=
  { params := 0, training := false, outDimsOf := fun d => d, outClasses := 2 }

def optW : Optimizer := ⟨0⟩

def critW : Int → Batch → Int := fun _ _ => 1

def updW : Int → Int → Int × Int := fun p o => (p + 1, o + 1)

def mzero : Nat → Int := fun _ => 0

/-- A batch whose image and mask dims agree (and match `netW`). -/
def goodB : Batch := ⟨4, ⟨64, 64⟩, ⟨64, 64⟩⟩

/-- A batch whose mask dims disagree with its image dims. -/
def badB : Batch := ⟨4, ⟨64, 64⟩, ⟨32, 32⟩⟩

def chkW : Chkpt := ⟨10, 7, 9⟩

def cfgW : Cfg :=
  { modelName := "albunet", lossName := "lovasz", numEpochs := 10, numClasses := 2 }

def envW : Env :=
  { models := ["albunet"], losses := ["lovasz"], initNet := netW, freshOpt := optW,
    criterion := critW, upd := updW, miouOf := mzero, fgIouOf := mzero, mccOf := mzero }

def argsResume : Args := ⟨some chkW, true⟩

def argsRetrain : Args := ⟨some chkW, false⟩

/-! ## The claims -/

/-- C1: when `--resume` is given with a checkpoint whose stored epoch is at
least the configured total epoch count, `main` terminates through the
resume guard with a non-zero exit and its descriptive message, and the
epoch loop is never entered: zero training epochs run, zero checkpoints
are written. -/
theorem resume_guard_refuses (cfg : Cfg) (args : Args) (env : Env)
    (trainB valB : List Batch) (c : Chkpt)
    (hm : cfg.modelName ∈ env.models) (hl : cfg.lossName ∈ env.losses)
    (hck : args.checkpoint = some c) (hr : args.resume = true)
    (he : cfg.numEpochs ≤ c.epoch) :
    mainModel cfg args env trainB valB = .error (.epochReached cfg.numEpochs) ∧
    exitCode (mainModel cfg args env trainB valB) ≠ 0 ∧
    epochsRun (mainModel cfg args env trainB valB) = 0 := by
  have hsetup : mainSetup cfg args env = .error (.epochReached cfg.numEpochs) := by
    simp only [mainSetup, hck, hr, if_true]
    rw [if_neg (not_not_intro hm), if_neg (not_not_intro hl), if_pos he]
  refine ⟨?_, ?_, ?_⟩
  · simp [mainModel, hsetup]
  · simp [mainModel, hsetup, exitCode]
  · simp [mainModel, hsetup, epochsRun, mainSaved]

theorem resume_guard_refuses_witness :
    mainModel cfgW argsResume envW [] [] = .error (.epochReached cfgW.numEpochs) ∧
    exitCode (mainModel cfgW argsResume envW [] []) ≠ 0 ∧
    epochsRun (mainModel cfgW argsResume envW [] []) = 0 :=
  resume_guard_refuses cfgW argsResume envW [] [] chkW (by decide) (by decide)
    rfl rfl (by decide)

/-- C4: a configured model name outside the discovered model plugin list
makes `main` exit non-zero with the message carrying the full list of
available model names; with the model name valid, a loss name outside the
loss plugin list does the same with the available loss names; and the run
only reaches the epoch loop when both names resolve. -/
theorem unknown_plugin_exits (cfg : Cfg) (args : Args) (env : Env)
    (trainB valB : List Batch) :
    (cfg.modelName ∉ env.models →
      mainModel cfg args env trainB valB = .error (.unknownModel env.models) ∧
      exitCode (mainModel cfg args env trainB valB) ≠ 0) ∧
    (cfg.modelName ∈ env.models → cfg.lossName ∉ env.losses →
      mainModel cfg args env trainB valB = .error (.unknownLoss env.losses) ∧
      exitCode (mainModel cfg args env trainB valB) ≠ 0) ∧
    (∀ lr, mainModel cfg args env trainB valB = .ok lr →
      cfg.modelName ∈ env.models ∧ cfg.lossName ∈ env.losses) := by
  refine ⟨?_, ?_, ?_⟩
  · intro hm
    have hsetup : mainSetup cfg args env = .error (.unknownModel env.models) := by
      simp only [mainSetup, if_pos hm]
    exact ⟨by simp [mainModel, hsetup], by simp [mainModel, hsetup, exitCode]⟩
  · intro hm hl
    have hsetup : mainSetup cfg args env = .error (.unknownLoss env.losses) := by
      simp only [mainSetup]
      rw [if_neg (not_not_intro hm), if_pos hl]
    exact ⟨by simp [mainModel, hsetup], by simp [mainModel, hsetup, exitCode]⟩
  · intro lr hok
    by_cases hm : cfg.modelName ∈ env.models
    · by_cases hl : cfg.lossName ∈ env.losses
      · exact ⟨hm, hl⟩
      · have hsetup : mainSetup cfg args env = .error (.unknownLoss env.losses) := by
          simp only [mainSetup]
          rw [if_neg (not_not_intro hm), if_pos hl]
        simp [mainModel, hsetup] at hok
    · have hsetup : mainSetup cfg args env = .error (.unknownModel env.models) := by
        simp only [mainSetup, if_pos hm]
      simp [mainModel, hsetup] at hok

theorem unknown_plugin_exits_witness :
    ({ cfgW with modelName := "unet" } : Cfg).modelName ∉ envW.models ∧
    mainModel { cfgW with modelName := "unet" } argsRetrain envW [] [] =
      .error (.unknownModel envW.models) ∧
    exitCode (mainModel { cfgW with modelName := "unet" } argsRetrain envW [] []) ≠ 0 :=
  have h := unknown_plugin_exits { cfgW with modelName := "unet" } argsRetrain envW [] []
  ⟨by decide, (h.1 (by decide)).1, (h.1 (by decide)).2⟩

/-- C10: a checkpoint supplied without `--resume` loads only the model
weights: the optimizer stays freshly initialized, the resume epoch stays
0, and (over shape-consistent, non-empty loaders) the run completes all
configured epochs, numbered 1..num_epochs, starting from epoch 0. -/
theorem retrain_semantics (cfg : Cfg) (args : Args) (env : Env)
    (trainB valB : List Batch) (c : Chkpt)
    (hm : cfg.modelName ∈ env.models) (hl : cfg.lossName ∈ env.losses)
    (hck : args.checkpoint = some c) (hr : args.resume = false)
    (hpos : 0 < cfg.numEpochs)
    (hT : ∀ b ∈ trainB, WellShaped cfg.numClasses env.initNet b)
    (hV : ∀ b ∈ valB, WellShaped cfg.numClasses env.initNet b)
    (hTn : visitedSamples trainB ≠ 0) (hVn : visitedSamples valB ≠ 0) :
    mainSetup cfg args env =
      .ok ({ env.initNet with params := c.state_dict }, env.freshOpt, 0) ∧
    ∃ svs net' opt',
      mainModel cfg args env trainB valB = .ok (.done svs net' opt') ∧
      svs.map Saved.epoch = List.range' 1 cfg.numEpochs := by
  have hsetup : mainSetup cfg args env =
      .ok ({ env.initNet with params := c.state_dict }, env.freshOpt, 0) := by
    simp only [mainSetup, hck, hr, Bool.false_eq_true, if_false]
    rw [if_neg (not_not_intro hm), if_neg (not_not_intro hl),
      if_neg (by omega : ¬ cfg.numEpochs ≤ 0)]
  obtain ⟨svs, net', opt', heq, hmape, _⟩ :=
    runEpochs_done cfg env trainB valB cfg.numEpochs 0
      { env.initNet with params := c.state_dict } env.freshOpt hT hV hTn hVn
  refine ⟨hsetup, svs, net', opt', ?_, by simpa using hmape⟩
  simp only [mainModel, hsetup, Nat.sub_zero, heq]

theorem retrain_semantics_witness :
    mainSetup cfgW argsRetrain envW =
      .ok ({ envW.initNet with params := chkW.state_dict }, envW.freshOpt, 0) ∧
    ∃ svs net' opt',
      mainModel cfgW argsRetrain envW [goodB] [goodB] = .ok (.done svs net' opt') ∧
      svs.map Saved.epoch = List.range' 1 cfgW.numEpochs :=
  retrain_semantics cfgW argsRetrain envW [goodB] [goodB] chkW (by decide) (by decide)
    rfl rfl (by decide) (by decide) (by decide) (by decide) (by decide)

/-- C5: over shape-consistent, non-empty loaders the epoch loop completes
every remaining epoch and, at the end of each epoch `k` (after its train
and validation passes), writes the checkpoint record carrying `k + 1` to
the file `checkpoint-(k+1)-of-numEpochs` (both numbers zero-padded); the
filenames of a run are pairwise distinct, so no epoch's file is
overwritten by a later epoch's. -/
theorem checkpoint_per_epoch (cfg : Cfg) (env : Env) (trainB valB : List Batch)
    (r e : Nat) (net : Net) (opt : Optimizer)
    (hT : ∀ b ∈ trainB, WellShaped cfg.numClasses net b)
    (hV : ∀ b ∈ valB, WellShaped cfg.numClasses net b)
    (hTn : visitedSamples trainB ≠ 0) (hVn : visitedSamples valB ≠ 0) :
    ∃ svs net' opt',
      runEpochs cfg env trainB valB r e net opt = .done svs net' opt' ∧
      svs.map Saved.epoch = List.range' (e + 1) r ∧
      svs.map Saved.path =
        (List.range' (e + 1) r).map (fun k => chkptName k cfg.numEpochs) ∧
      (svs.map Saved.path).Nodup := by
  obtain ⟨svs, net', opt', heq, hmape, hmapp⟩ :=
    runEpochs_done cfg env trainB valB r e net opt hT hV hTn hVn
  refine ⟨svs, net', opt', heq, hmape, hmapp, ?_⟩
  rw [hmapp]
  have hnd : (List.range' (e + 1) r).Nodup := by simp [List.nodup_range']
  exact hnd.map (chkptName_inj cfg.numEpochs)

theorem checkpoint_per_epoch_witness :
    (∃ svs net' opt',
      runEpochs cfgW envW [goodB] [goodB] 2 0 netW optW = .done svs net' opt' ∧
      svs.map Saved.epoch = List.range' 1 2 ∧
      svs.map Saved.path =
        (List.range' 1 2).map (fun k => chkptName k cfgW.numEpochs) ∧
      (svs.map Saved.path).Nodup) ∧
    chkptName 1 10 = "checkpoint-00001-of-00010.pth" :=
  ⟨checkpoint_per_epoch cfgW envW [goodB] [goodB] 2 0 netW optW
    (by decide) (by decide) (by decide) (by decide),
   by apply congrArg String.mk; simp [pad5, digitChars]; decide⟩

/-- C2: in a train or validation pass, a batch violating one of the shape
assertions (image/mask spatial dims, output/mask spatial dims, or output
class count against the configured class count) aborts the pass with a
shape-mismatch assertion rather than being skipped, and the Metrics engine
at the abort holds only the pairs of the batches before it: nothing of the
mismatched batch is accumulated. -/
theorem shape_mismatch_fatal (numClasses : Nat) (criterion : Int → Batch → Int)
    (upd : Int → Int → Int × Int) (miouOf fgIouOf mccOf : Nat → Int)
    (net : Net) (opt : Optimizer) (pre : List Batch) (b : Batch) (rest : List Batch)
    (hws : ∀ x ∈ pre, WellShaped numClasses net x)
    (hb : ¬ WellShaped numClasses net b) :
    (∃ e s' n' o',
      runTrain numClasses criterion upd miouOf fgIouOf mccOf net opt (pre ++ b :: rest) =
        .fail e s' n' o' ∧ e.isShape = true ∧ s'.metrics = visitedSamples pre) ∧
    (∃ e s' n',
      runValidate numClasses criterion miouOf fgIouOf mccOf net (pre ++ b :: rest) =
        .fail e s' n' ∧ e.isShape = true ∧ s'.metrics = visitedSamples pre) := by
  constructor
  · obtain ⟨e, s', n', o', heq, hse, hm⟩ :=
      trainAux_shape numClasses criterion upd pre b rest
        { net with training := true } opt ⟨0, 0, 0⟩ hws hb
    refine ⟨e, s', n', o', ?_, hse, by simpa using hm⟩
    simp only [runTrain, heq]
  · obtain ⟨e, s', n', heq, hse, hm⟩ :=
      valAux_shape numClasses criterion pre b rest
        { net with training := false } ⟨0, 0, 0⟩ hws hb
    refine ⟨e, s', n', ?_, hse, by simpa using hm⟩
    simp only [runValidate, heq]

theorem shape_mismatch_fatal_witness :
    (∃ e s' n' o',
      runTrain 2 critW updW mzero mzero mzero netW optW ([goodB] ++ badB :: []) =
        .fail e s' n' o' ∧ e.isShape = true ∧ s'.metrics = visitedSamples [goodB]) ∧
    (∃ e s' n',
      runValidate 2 critW mzero mzero mzero netW ([goodB] ++ badB :: []) =
        .fail e s' n' ∧ e.isShape = true ∧ s'.metrics = visitedSamples [goodB]) :=
  shape_mismatch_fatal 2 critW updW mzero mzero mzero netW optW [goodB] badB []
    (by decide) (by decide)

/-- C3 counterexample: a pass whose first batch fails the image/mask shape
assertion processes zero samples yet does not fail with EmptyDataset — it
fails with the shape assertion — so "fails with EmptyDataset if and only
if zero samples were processed" is false as stated. -/
theorem empty_dataset_iff_cex :
    (runTrain 2 critW updW mzero mzero mzero netW optW [badB]).stateOf.numSamples = 0 ∧
    (runTrain 2 critW updW mzero mzero mzero netW optW [badB]).errOf ≠
      some TrainError.emptyDataset ∧
    (runTrain 2 critW updW mzero mzero mzero netW optW [badB]).errOf =
      some TrainError.shapeImageMask := by
  refine ⟨rfl, ?_, rfl⟩
  decide

/-- C3 (amended): in a pass whose batches all satisfy the shape assertions,
the pass fails with EmptyDataset exactly when zero samples were processed,
and a pass that processes at least one sample returns its statistics
record (loss, mIoU, fg IoU, MCC) normally. -/
theorem empty_dataset_iff_amended (numClasses : Nat) (criterion : Int → Batch → Int)
    (upd : Int → Int → Int × Int) (miouOf fgIouOf mccOf : Nat → Int)
    (net : Net) (opt : Optimizer) (l : List Batch)
    (hws : ∀ b ∈ l, WellShaped numClasses net b) :
    ((runTrain numClasses criterion upd miouOf fgIouOf mccOf net opt l).errOf =
        some TrainError.emptyDataset ↔ visitedSamples l = 0) ∧
    (visitedSamples l ≠ 0 →
      ∃ hist s' n' o',
        runTrain numClasses criterion upd miouOf fgIouOf mccOf net opt l =
          .ok hist s' n' o') ∧
    ((runValidate numClasses criterion miouOf fgIouOf mccOf net l).errOf =
        some TrainError.emptyDataset ↔ visitedSamples l = 0) ∧
    (visitedSamples l ≠ 0 →
      ∃ hist s' n',
        runValidate numClasses criterion miouOf fgIouOf mccOf net l = .ok hist s' n') := by
  have hT := runTrain_wellShaped numClasses criterion upd miouOf fgIouOf mccOf net opt l hws
  have hV := runValidate_wellShaped numClasses criterion miouOf fgIouOf mccOf net l hws
  refine ⟨?_, ?_, ?_, ?_⟩
  · constructor
    · intro he
      by_contra hz
      obtain ⟨hist, s', n', o', heq, _⟩ := hT.2 hz
      rw [heq] at he
      simp [Outcome.errOf] at he
    · intro hz
      obtain ⟨s', n', o', heq⟩ := hT.1 hz
      rw [heq]
      rfl
  · intro hz
    obtain ⟨hist, s', n', o', heq, _⟩ := hT.2 hz
    exact ⟨hist, s', n', o', heq⟩
  · constructor
    · intro he
      by_contra hz
      obtain ⟨hist, s', heq, _⟩ := hV.2 hz
      rw [heq] at he
      simp [ValOutcome.errOf] at he
    · intro hz
      obtain ⟨s', heq⟩ := hV.1 hz
      rw [heq]
      rfl
  · intro hz
    obtain ⟨hist, s', heq, _⟩ := hV.2 hz
    exact ⟨hist, s', _, heq⟩

theorem empty_dataset_iff_amended_witness :
    ((runTrain 2 critW updW mzero mzero mzero netW optW [goodB]).errOf =
        some TrainError.emptyDataset ↔ visitedSamples [goodB] = 0) ∧
    (visitedSamples [goodB] ≠ 0 →
      ∃ hist s' n' o',
        runTrain 2 critW updW mzero mzero mzero netW optW [goodB] = .ok hist s' n' o') ∧
    ((runValidate 2 critW mzero mzero mzero netW [goodB]).errOf =
        some TrainError.emptyDataset ↔ visitedSamples [goodB] = 0) ∧
    (visitedSamples [goodB] ≠ 0 →
      ∃ hist s' n',
        runValidate 2 critW mzero mzero mzero netW [goodB] = .ok hist s' n') :=
  empty_dataset_iff_amended 2 critW updW mzero mzero mzero netW optW [goodB] (by decide)

/-- The net a `validate` call returns, whatever the outcome, is the input
net switched to eval mode: its parameters are untouched. -/
lemma runValidate_netOf (numClasses : Nat) (criterion : Int → Batch → Int)
    (miouOf fgIouOf mccOf : Nat → Int) (net : Net) (l : List Batch) :
    (runValidate numClasses criterion miouOf fgIouOf mccOf net l).netOf =
      { net with training := false } := by
  have h := valAux_net numClasses criterion { net with training := false } l ⟨0, 0, 0⟩
  unfold runValidate
  cases heq : runValidateAux numClasses criterion { net with training := false } ⟨0, 0, 0⟩ l with
  | error t =>
    obtain ⟨e, s, n⟩ := t
    rw [heq] at h
    simpa [ValOutcome.netOf] using h
  | ok p =>
    obtain ⟨n, s⟩ := p
    rw [heq] at h
    by_cases hz : s.numSamples = 0
    · simpa [ValOutcome.netOf, hz] using h
    · simpa [ValOutcome.netOf, hz] using h

/-- C6: a validation pass never mutates model parameters or optimizer
state: whether it completes or aborts on an assertion, the net it hands
back has the parameters it received (only the train/eval mode flag was
switched to eval, and its forward-pass behaviour is unchanged); and the
optimizer an epoch checkpoints after validation is exactly the optimizer
the train pass produced — `validate` is never given the optimizer at all,
performs no backpropagation and no optimizer step. -/
theorem validate_frame (numClasses : Nat) (criterion : Int → Batch → Int)
    (miouOf fgIouOf mccOf : Nat → Int) (net : Net) (l : List Batch)
    (cfg : Cfg) (env : Env) (trainB valB : List Batch) (e : Nat)
    (net0 : Net) (opt0 : Optimizer) :
    ((runValidate numClasses criterion miouOf fgIouOf mccOf net l).netOf.params =
        net.params ∧
      (runValidate numClasses criterion miouOf fgIouOf mccOf net l).netOf.training =
        false ∧
      (runValidate numClasses criterion miouOf fgIouOf mccOf net l).netOf.outDimsOf =
        net.outDimsOf) ∧
    (∀ sv net2 opt2,
      epochBody cfg env trainB valB e net0 opt0 = .ok (sv, net2, opt2) →
      opt2 = (runTrain cfg.numClasses env.criterion env.upd env.miouOf env.fgIouOf
          env.mccOf net0 opt0 trainB).optOf) := by
  constructor
  · rw [runValidate_netOf]
    exact ⟨rfl, rfl, rfl⟩
  · intro sv net2 opt2 h
    cases hT : runTrain cfg.numClasses env.criterion env.upd env.miouOf env.fgIouOf
        env.mccOf net0 opt0 trainB with
    | fail e1 s1 n1 o1 =>
      simp only [epochBody, hT] at h
      exact Except.noConfusion h
    | ok h1 s1 n1 o1 =>
      simp only [epochBody, hT] at h
      cases hV : runValidate cfg.numClasses env.criterion env.miouOf env.fgIouOf
          env.mccOf n1 valB with
      | fail e2 s2 n2 =>
        simp only [hV] at h
        exact Except.noConfusion h
      | ok h2 s2 n2 =>
        simp only [hV, Except.ok.injEq, Prod.mk.injEq] at h
        exact h.2.2.symm

theorem validate_frame_witness :
    ((runValidate 2 critW mzero mzero mzero netW [goodB]).netOf.params =
        netW.params ∧
      (runValidate 2 critW mzero mzero mzero netW [goodB]).netOf.training = false ∧
      (runValidate 2 critW mzero mzero mzero netW [goodB]).netOf.outDimsOf =
        netW.outDimsOf) ∧
    (∀ sv net2 opt2,
      epochBody cfgW envW [goodB] [goodB] 0 netW optW = .ok (sv, net2, opt2) →
      opt2 = (runTrain cfgW.numClasses envW.criterion envW.upd envW.miouOf envW.fgIouOf
          envW.mccOf netW optW [goodB]).optOf) :=
  validate_frame 2 critW mzero mzero mzero netW [goodB] cfgW envW [goodB] [goodB] 0
    netW optW

/-- C7: the joint pipeline built in `get_dataset_loaders` applies, to every
(image, mask) pair and every random draw, exactly: joint resize to the
configured tile size, then joint random flip-or-rotate gated by the
data-augmentation flag (identical draw on image and mask), then tensor
conversion of image and mask, then normalization with the fixed ImageNet
mean/std constants on the image only — the mask's side of the composite
never passes through the normalization. -/
theorem transform_order {I M : Type} (sem : TransformSem I M) (tileSize : Nat)
    (dataAug : Bool) (c : Fin 6) (img : I) (mask : M) :
    applyCompose sem c (trainTransform tileSize dataAug) (img, mask) =
      (sem.normalizeI imagenetMean imagenetStd (sem.toTensorI
        (if dataAug then sem.flipI c (sem.resizeI tileSize img)
         else sem.resizeI tileSize img)),
       sem.toTensorM
        (if dataAug then sem.flipM c (sem.resizeM tileSize mask)
         else sem.resizeM tileSize mask)) := by
  cases dataAug <;> rfl

/-- C8: `add_parser` declares `--dataset` with `type=int` (train.py line
41), so argparse applies python's `int` conversion to the flag's value: a
filesystem path is rejected at the command line (argparse exits with an
error before `main` runs) while a decimal number is accepted — the
documented path override is impossible as typed. -/
theorem dataset_flag_int_bug :
    datasetFlagParse "./path/to/dataset" = none ∧
    datasetFlagParse "dataset" = none ∧
    datasetFlagParse "5" = some 5 := by
  refine ⟨?_, ?_, ?_⟩ <;> decide

/-- C9: both loaders are built with `drop_last=True`, so a pass visits
exactly `count - count % batch_size` samples — the trailing
`count % batch_size` samples are never visited — and a non-empty dataset
smaller than one batch yields zero batches, making both the train pass
and the validation pass die on the EmptyDataset assertion even though
tiles are present. -/
theorem drop_last_semantics (count batchSize : Nat) (d : Dims) :
    (visitedSamples (loaderBatches count batchSize d) + count % batchSize = count) ∧
    (0 < count → count < batchSize →
      ∀ (numClasses : Nat) (criterion : Int → Batch → Int)
        (upd : Int → Int → Int × Int) (miouOf fgIouOf mccOf : Nat → Int)
        (net : Net) (opt : Optimizer),
        (runTrain numClasses criterion upd miouOf fgIouOf mccOf net opt
            (loaderBatches count batchSize d)).errOf = some TrainError.emptyDataset ∧
        (runValidate numClasses criterion miouOf fgIouOf mccOf net
            (loaderBatches count batchSize d)).errOf = some TrainError.emptyDataset) := by
  constructor
  · have hv : visitedSamples (loaderBatches count batchSize d) =
        count / batchSize * batchSize := by
      simp [visitedSamples, loaderBatches, List.sum_replicate, smul_eq_mul]
    rw [hv, Nat.mul_comm]
    exact Nat.div_add_mod count batchSize
  · intro _ hlt numClasses criterion upd miouOf fgIouOf mccOf net opt
    have hnil : loaderBatches count batchSize d = [] := by
      simp [loaderBatches, Nat.div_eq_of_lt hlt]
    rw [hnil]
    exact ⟨rfl, rfl⟩

theorem drop_last_semantics_witness :
    (visitedSamples (loaderBatches 3 8 ⟨64, 64⟩) + 3 % 8 = 3) ∧
    (0 < 3 → 3 < 8 →
      ∀ (numClasses : Nat) (criterion : Int → Batch → Int)
        (upd : Int → Int → Int × Int) (miouOf fgIouOf mccOf : Nat → Int)
        (net : Net) (opt : Optimizer),
        (runTrain numClasses criterion upd miouOf fgIouOf mccOf net opt
            (loaderBatches 3 8 ⟨64, 64⟩)).errOf = some TrainError.emptyDataset ∧
        (runValidate numClasses criterion miouOf fgIouOf mccOf net
            (loaderBatches 3 8 ⟨64, 64⟩)).errOf = some TrainError.emptyDataset) :=
  drop_last_semantics 3 8 ⟨64, 64⟩

end RobosatPink
